import Mathlib

/-!
# Verification of the AMD-Net EFFU backbone (`src/amdnet_effu.py`)

A shallow embedding of the backbone at the level of tensor *shapes* and of
the construction-time configuration checks.  Tensors are represented by their
shape `(batch, channels, height, width)`; each layer becomes the
shape-transformer that the corresponding framework primitive realises, and
each fallible step (assertion, list indexing, shape mismatch at runtime)
returns through `Except`.

The Python file under verification wires together external framework
primitives (2-d convolution, max-pooling, bilinear upsampling, channel
concatenation, CBAM attention).  Their shape semantics below follow the
framework's documented shape formulas; everything else (the order of the
checks, the block construction loops, the hard-coded five-stage forward
wiring, the `train` override) is transcribed from the source file.
-/

set_option maxHeartbeats 1000000

/-- Shape of a 4-d tensor `(B, C, H, W)`. -/
structure Shape where
  batch : Nat
  channels : Nat
  height : Nat
  width : Nat
deriving DecidableEq, Repr, Inhabited

/-- Parameters of one 2-d convolution layer (square kernel, symmetric
stride/padding/dilation, as used throughout the source). -/
structure ConvSpec where
  inCh : Nat
  outCh : Nat
  kernel : Nat
  stride : Nat
  dilation : Nat
  padding : Nat
deriving DecidableEq, Repr, Inhabited

/-- Ceiling division, `⌈n / k⌉` on naturals. -/
def ceilDiv (n k : Nat) : Nat := (n + k - 1) / k

instance {ε α : Type} [DecidableEq ε] [DecidableEq α] : DecidableEq (Except ε α) := fun a b =>
  match a, b with
  | .ok x, .ok y =>
    if h : x = y then .isTrue (by rw [h]) else .isFalse (by intro hc; cases hc; exact h rfl)
  | .error x, .error y =>
    if h : x = y then .isTrue (by rw [h]) else .isFalse (by intro hc; cases hc; exact h rfl)
  | .ok _, .error _ => .isFalse (by intro hc; cases hc)
  | .error _, .ok _ => .isFalse (by intro hc; cases hc)

/-- Shape semantics of the framework's 2-d convolution (external primitive):
output spatial size is `(H + 2·padding - dilation·(kernel-1) - 1) / stride + 1`,
the input channel count must match the layer's, and the framework rejects the
call when the computed output size would not be positive. -/
def convOut (s : ConvSpec) (x : Shape) : Option Shape :=
  if x.channels = s.inCh ∧ 1 ≤ s.stride ∧
      s.dilation * (s.kernel - 1) + 1 ≤ x.height + 2 * s.padding ∧
      s.dilation * (s.kernel - 1) + 1 ≤ x.width + 2 * s.padding then
    some ⟨x.batch, s.outCh,
      (x.height + 2 * s.padding - (s.dilation * (s.kernel - 1) + 1)) / s.stride + 1,
      (x.width + 2 * s.padding - (s.dilation * (s.kernel - 1) + 1)) / s.stride + 1⟩
  else none

/-- Errors that a forward call can surface: the divisibility assertion of
`_check_input_divisible` (carrying the offending height, width and the whole
downsample rate it names), an out-of-range `ModuleList` index, or a runtime
shape error raised by a framework primitive. -/
inductive FwdErr where
  | assertDivisible (h w rate : Nat)
  | indexOOR
  | shapeErr
deriving DecidableEq, Repr

/-- Lift the convolution shape function into the forward-error monad. -/
def applyConv (s : ConvSpec) (x : Shape) : Except FwdErr Shape :=
  match convOut s x with
  | some y => .ok y
  | none => .error .shapeErr

/-- Shape semantics of `nn.MaxPool2d(k, k, ceil_mode=True)` (external
primitive): spatial size becomes `⌈H/k⌉`, and the framework rejects inputs
whose output size would not be positive. -/
def pool (k : Nat) (x : Shape) : Except FwdErr Shape :=
  if 1 ≤ x.height ∧ 1 ≤ x.width ∧ 1 ≤ k then
    .ok ⟨x.batch, x.channels, ceilDiv x.height k, ceilDiv x.width k⟩
  else .error .shapeErr

/-- Shape semantics of `nn.Upsample(scale_factor=k, mode='bilinear',
align_corners=True)` (external primitive): spatial size is multiplied by `k`;
the framework rejects empty spatial inputs. -/
def upsample (k : Nat) (x : Shape) : Except FwdErr Shape :=
  if 1 ≤ x.height ∧ 1 ≤ x.width then
    .ok ⟨x.batch, x.channels, x.height * k, x.width * k⟩
  else .error .shapeErr

/-- Shape semantics of `torch.cat(xs, dim=1)` (external primitive): all
tensors must agree on batch and spatial dimensions; channel counts add. -/
def catList : List Shape → Except FwdErr Shape
  | [] => .error .shapeErr
  | x :: xs =>
    xs.foldlM
      (fun acc y =>
        if acc.batch = y.batch ∧ acc.height = y.height ∧ acc.width = y.width then
          .ok ⟨acc.batch, acc.channels + y.channels, acc.height, acc.width⟩
        else .error .shapeErr)
      x

/-- Shape semantics of the external `CBAMBlock(c)` attention gate: a
multiplicative channel/spatial re-weighting, so the shape passes through
unchanged, but the channel count must match the block's construction
parameter. -/
def cbamApply (c : Nat) (x : Shape) : Except FwdErr Shape :=
  if x.channels = c then .ok x else .error .shapeErr

/-- Construction-time errors of `BasicConvBlock.__init__` and
`AMDNet_EFFU.__init__`: the pretrained/init_cfg assertion, the pretrained
type error, the dcn/plugins assertions, and the six configuration-length
assertions (each carrying the offending sequence's length and `num_stages`,
which the assertion message names). -/
inductive CtorErr where
  | assertPretrainedInitCfg
  | typeErrorPretrained
  | assertDcn
  | assertPlugins
  | lenStrides (len numStages : Nat)
  | lenEncNumConvs (len numStages : Nat)
  | lenDecNumConvs (len numStages : Nat)
  | lenDownsamples (len numStages : Nat)
  | lenEncDilations (len numStages : Nat)
  | lenDecDilations (len numStages : Nat)
deriving DecidableEq, Repr

/-- `BasicConvBlock`: the gradient-checkpoint flag and the list of its
sequential convolution layers (`self.convs`). -/
structure BasicConvBlock where
  withCp : Bool
  convs : List ConvSpec
deriving DecidableEq, Repr, Inhabited

/-- The convolution layers built by the loop in `BasicConvBlock.__init__`:
layer `i` maps `in_channels if i == 0 else out_channels` to `out_channels`
with kernel 3, `stride if i == 0 else 1`, `dilation 1 if i == 0 else
dilation` and `padding 1 if i == 0 else dilation`. -/
def basicConvs (inCh outCh numConvs stride dilation : Nat) : List ConvSpec :=
  (List.range numConvs).map fun i =>
    if i = 0 then
      ⟨inCh, outCh, 3, stride, 1, 1⟩
    else
      ⟨outCh, outCh, 3, 1, dilation, dilation⟩

/-- `BasicConvBlock.__init__`: asserts `dcn is None` and `plugins is None`,
then builds the convolution list. -/
def mkBasicConvBlock (inCh outCh numConvs stride dilation : Nat) (withCp : Bool)
    (dcn plugins : Option Unit) : Except CtorErr BasicConvBlock :=
  if dcn.isSome then .error .assertDcn
  else if plugins.isSome then .error .assertPlugins
  else .ok ⟨withCp, basicConvs inCh outCh numConvs stride dilation⟩

/-- `BasicConvBlock.forward`: the convolutions applied in sequence.
(Gradient checkpointing recomputes the same sequence, so it does not change
the shape semantics.) -/
def BasicConvBlock.apply (b : BasicConvBlock) (x : Shape) : Except FwdErr Shape :=
  b.convs.foldlM (fun s c => applyConv c s) x

/-- The `pretrained` constructor argument: `None`, a string path, or any
other (truthy, non-string) object. -/
inductive Pretrained where
  | nil
  | str (s : String)
  | other
deriving DecidableEq, Repr

/-- Python truthiness of the `pretrained` argument (the empty string is
falsy; `other` stands for a truthy non-string object). -/
def truthyPretrained : Pretrained → Bool
  | .nil => false
  | .str s => s ≠ ""
  | .other => true

/-- The value `self.init_cfg` ends up with after `__init__`: the
`dict(type='Pretrained', checkpoint=...)` built from a string `pretrained`,
the default Kaiming/Constant list, or the user-supplied `init_cfg` kept. -/
inductive InitCfgResult where
  | pretrainedCkpt (s : String)
  | defaultInit
  | given
deriving DecidableEq, Repr, Inhabited

/-- Constructor configuration of `AMDNet_EFFU` (the arguments that shape the
network or the checks; `conv_cfg`/`norm_cfg`/`act_cfg`/`upsample_cfg` only
select inner primitives and do not affect any claim).  A supplied `init_cfg`
is modelled as a non-empty dict, hence truthy. -/
structure Config where
  inChannels : Nat
  baseChannels : Nat
  numStages : Nat
  strides : List Nat
  encNumConvs : List Nat
  decNumConvs : List Nat
  downsamples : List Bool
  encDilations : List Nat
  decDilations : List Nat
  withCp : Bool
  normEval : Bool
  dcn : Option Unit
  plugins : Option Unit
  pretrained : Pretrained
  initCfg : Option Unit
deriving DecidableEq, Repr

/-- The model state `__init__` builds: the recorded configuration fields, the
fixed pooling/upsampling factors, and the four `ModuleList`s
(`effu_cbam` stores each CBAM block's channel parameter, `effu_c1` the 1×1
`ConvModule`s, `effu_c2` the encoder `BasicConvBlock`s, `decoder` the decoder
`BasicConvBlock`s). -/
structure Model where
  numStages : Nat
  strides : List Nat
  downsamples : List Bool
  normEval : Bool
  baseChannels : Nat
  initCfg : InitCfgResult
  pool16 : Nat
  pool8 : Nat
  pool4 : Nat
  pool2 : Nat
  up2 : Nat
  effu_cbam : List Nat
  effu_c1 : List ConvSpec
  effu_c2 : List BasicConvBlock
  decoder : List BasicConvBlock
deriving DecidableEq, Repr, Inhabited

/-- `enc_channels`: the list `[base_channels * 2^i for i in range(num_stages)]`. -/
def encChannels (cfg : Config) : List Nat :=
  (List.range cfg.numStages).map fun i => cfg.baseChannels * 2 ^ i

/-- The `effu_cbam` loop: for `i in range(1, num_stages)`, a CBAM block over
`np.sum(enc_channels[:i])` channels. -/
def buildEffuCbam (cfg : Config) : List Nat :=
  (List.range' 1 (cfg.numStages - 1)).map fun i => ((encChannels cfg).take i).sum

/-- The `effu_c1` loop: for `i in range(1, num_stages)`, a 1×1 `ConvModule`
from `np.sum(enc_channels[:i])` to `enc_channels[i-1]` channels
(stride 1, padding 0). -/
def buildEffuC1 (cfg : Config) : List ConvSpec :=
  (List.range' 1 (cfg.numStages - 1)).map fun i =>
    ⟨((encChannels cfg).take i).sum, (encChannels cfg).getD (i - 1) 0, 1, 1, 1, 0⟩

/-- The `effu_c2` loop: for `i in range(num_stages)`, a `BasicConvBlock` with
the running `in_channels` (the raw input channels for stage 0, then
`base_channels * 2^(i-1)` — the variable is reassigned at the end of each
iteration), `out_channels = base_channels * 2^i`, `enc_num_convs[i]`,
`strides[i]` and `enc_dilations[i]`. -/
def buildEffuC2 (cfg : Config) : List BasicConvBlock :=
  ((List.range cfg.numStages).foldl
    (fun (acc : List BasicConvBlock × Nat) i =>
      (acc.1 ++ [⟨cfg.withCp,
        basicConvs acc.2 (cfg.baseChannels * 2 ^ i)
          (cfg.encNumConvs.getD i 0) (cfg.strides.getD i 0)
          (cfg.encDilations.getD i 0)⟩],
       cfg.baseChannels * 2 ^ i))
    ([], cfg.inChannels)).1

/-- The `decoder` loop: for `i in range(num_stages - 1)`, a `BasicConvBlock`
from `enc_channels[i] + enc_channels[i+1]` to `enc_channels[i]` channels with
`num_convs=2`, `stride=1`, `dilation=1` hard-coded. -/
def buildDecoder (cfg : Config) : List BasicConvBlock :=
  (List.range (cfg.numStages - 1)).map fun i =>
    ⟨cfg.withCp,
      basicConvs ((encChannels cfg).getD i 0 + (encChannels cfg).getD (i + 1) 0)
        ((encChannels cfg).getD i 0) 2 1 1⟩

/-- The fields `__init__` records and the module lists it builds, given the
`self.init_cfg` value resulting from the pretrained dispatch. -/
def modelCore (cfg : Config) (initRes : InitCfgResult) : Model :=
  { numStages := cfg.numStages
    strides := cfg.strides
    downsamples := cfg.downsamples
    normEval := cfg.normEval
    baseChannels := cfg.baseChannels
    initCfg := initRes
    pool16 := 16
    pool8 := 8
    pool4 := 4
    pool2 := 2
    up2 := 2
    effu_cbam := buildEffuCbam cfg
    effu_c1 := buildEffuC1 cfg
    effu_c2 := buildEffuC2 cfg
    decoder := buildDecoder cfg }

/-- The `isinstance` dispatch on `pretrained`: a string emits the deprecation
warning (the returned `Bool`) and replaces `init_cfg` with a
`dict(type='Pretrained', checkpoint=pretrained)`; `None` keeps the supplied
`init_cfg` or installs the Kaiming/Constant defaults; anything else raises
`TypeError`. -/
def pretrainedDispatch (cfg : Config) : Except CtorErr (Bool × InitCfgResult) :=
  match cfg.pretrained with
  | .str s => .ok (true, .pretrainedCkpt s)
  | .nil =>
    .ok (false,
      match cfg.initCfg with
      | none => .defaultInit
      | some _ => .given)
  | .other => .error .typeErrorPretrained

/-- `AMDNet_EFFU.__init__`, in source order: the
`assert not (init_cfg and pretrained)` (Python truthiness), the `isinstance`
dispatch on `pretrained`, the `dcn`/`plugins` assertions, the six length
assertions (compared over `ℤ`, since Python's `num_stages - 1` may be
negative), then the recorded fields, the fixed pool/upsample layers and the
four module lists.  The returned `Bool` records whether the deprecation
warning was emitted.  (`BasicConvBlock` is always constructed here with
`dcn=None, plugins=None`, so its own assertions pass.) -/
def mkModel (cfg : Config) : Except CtorErr (Bool × Model) :=
  if truthyPretrained cfg.pretrained ∧ cfg.initCfg.isSome then
    .error .assertPretrainedInitCfg
  else
    match pretrainedDispatch cfg with
    | .error e => .error e
    | .ok (warned, initRes) =>
      if cfg.dcn.isSome then .error .assertDcn
      else if cfg.plugins.isSome then .error .assertPlugins
      else if (cfg.strides.length : Int) ≠ cfg.numStages then
        .error (.lenStrides cfg.strides.length cfg.numStages)
      else if (cfg.encNumConvs.length : Int) ≠ cfg.numStages then
        .error (.lenEncNumConvs cfg.encNumConvs.length cfg.numStages)
      else if (cfg.decNumConvs.length : Int) ≠ (cfg.numStages : Int) - 1 then
        .error (.lenDecNumConvs cfg.decNumConvs.length cfg.numStages)
      else if (cfg.downsamples.length : Int) ≠ (cfg.numStages : Int) - 1 then
        .error (.lenDownsamples cfg.downsamples.length cfg.numStages)
      else if (cfg.encDilations.length : Int) ≠ cfg.numStages then
        .error (.lenEncDilations cfg.encDilations.length cfg.numStages)
      else if (cfg.decDilations.length : Int) ≠ (cfg.numStages : Int) - 1 then
        .error (.lenDecDilations cfg.decDilations.length cfg.numStages)
      else .ok (warned, modelCore cfg initRes)

/-- `ModuleList` indexing: Python raises `IndexError` out of range. -/
def lookupM {α : Type} (l : List α) (i : Nat) : Except FwdErr α :=
  match l.get? i with
  | some a => .ok a
  | none => .error .indexOOR

/-- The `whole_downsample_rate` loop of `_check_input_divisible`: starting
from 1, multiply by 2 for each `i in range(1, num_stages)` with
`strides[i] == 2 or downsamples[i-1]`. -/
def wholeDownsampleRate (m : Model) : Nat :=
  (List.range' 1 (m.numStages - 1)).foldl
    (fun r i => if m.strides.getD i 0 = 2 ∨ m.downsamples.getD (i - 1) false then r * 2 else r)
    1

/-- `AMDNet_EFFU._check_input_divisible`: asserts that height and width are
divisible by the whole downsample rate, naming them and the rate. -/
def checkInputDivisible (m : Model) (x : Shape) : Except FwdErr Unit :=
  if x.height % wholeDownsampleRate m = 0 ∧ x.width % wholeDownsampleRate m = 0 then
    .ok ()
  else
    .error (.assertDivisible x.height x.width (wholeDownsampleRate m))

/-- The argument fed to `effu_cbam[0]` when computing `x1`: `pool_2(x0)`
(a single source, no `torch.cat`). -/
def fuseInput1 (m : Model) (x0 : Shape) : Except FwdErr Shape :=
  pool m.pool2 x0

/-- The argument fed to `effu_cbam[1]` when computing `x2`:
`torch.cat([pool_4(x0), pool_2(x1)], dim=1)`. -/
def fuseInput2 (m : Model) (x0 x1 : Shape) : Except FwdErr Shape := do
  let a ← pool m.pool4 x0
  let b ← pool m.pool2 x1
  catList [a, b]

/-- The argument fed to `effu_cbam[2]` when computing `x3`:
`torch.cat([pool_8(x0), pool_4(x1), pool_2(x2)], dim=1)`. -/
def fuseInput3 (m : Model) (x0 x1 x2 : Shape) : Except FwdErr Shape := do
  let a ← pool m.pool8 x0
  let b ← pool m.pool4 x1
  let c ← pool m.pool2 x2
  catList [a, b, c]

/-- The argument fed to `effu_cbam[3]` when computing `x4`:
`torch.cat([pool_16(x0), pool_8(x1), pool_4(x2), pool_2(x3)], dim=1)`. -/
def fuseInput4 (m : Model) (x0 x1 x2 x3 : Shape) : Except FwdErr Shape := do
  let a ← pool m.pool16 x0
  let b ← pool m.pool8 x1
  let c ← pool m.pool4 x2
  let d ← pool m.pool2 x3
  catList [a, b, c, d]

/-- `x0 = self.effu_c2[0](x)`. -/
def stage0 (m : Model) (x : Shape) : Except FwdErr Shape := do
  let c2 ← lookupM m.effu_c2 0
  c2.apply x

/-- `x1 = self.effu_c2[1](self.effu_c1[0](self.effu_cbam[0](pool_2(x0))))`.
As in Python, each callable (`ModuleList` index) is evaluated before its
argument expression. -/
def stage1 (m : Model) (x0 : Shape) : Except FwdErr Shape := do
  let c2 ← lookupM m.effu_c2 1
  let c1 ← lookupM m.effu_c1 0
  let cb ← lookupM m.effu_cbam 0
  let t ← fuseInput1 m x0
  let t ← cbamApply cb t
  let t ← applyConv c1 t
  c2.apply t

/-- `x2 = self.effu_c2[2](self.effu_c1[1](self.effu_cbam[1](cat(...))))`. -/
def stage2 (m : Model) (x0 x1 : Shape) : Except FwdErr Shape := do
  let c2 ← lookupM m.effu_c2 2
  let c1 ← lookupM m.effu_c1 1
  let cb ← lookupM m.effu_cbam 1
  let t ← fuseInput2 m x0 x1
  let t ← cbamApply cb t
  let t ← applyConv c1 t
  c2.apply t

/-- `x3 = self.effu_c2[3](self.effu_c1[2](self.effu_cbam[2](cat(...))))`. -/
def stage3 (m : Model) (x0 x1 x2 : Shape) : Except FwdErr Shape := do
  let c2 ← lookupM m.effu_c2 3
  let c1 ← lookupM m.effu_c1 2
  let cb ← lookupM m.effu_cbam 2
  let t ← fuseInput3 m x0 x1 x2
  let t ← cbamApply cb t
  let t ← applyConv c1 t
  c2.apply t

/-- `x4 = self.effu_c2[4](self.effu_c1[3](self.effu_cbam[3](cat(...))))`. -/
def stage4 (m : Model) (x0 x1 x2 x3 : Shape) : Except FwdErr Shape := do
  let c2 ← lookupM m.effu_c2 4
  let c1 ← lookupM m.effu_c1 3
  let cb ← lookupM m.effu_cbam 3
  let t ← fuseInput4 m x0 x1 x2 x3
  let t ← cbamApply cb t
  let t ← applyConv c1 t
  c2.apply t

/-- `dec_i = self.decoder[i](torch.cat([skip, self.up_2(below)], dim=1))`. -/
def decStage (m : Model) (i : Nat) (skip below : Shape) : Except FwdErr Shape := do
  let d ← lookupM m.decoder i
  let u ← upsample m.up2 below
  let t ← catList [skip, u]
  d.apply t

/-- `AMDNet_EFFU.forward`: the divisibility check, the five hard-coded
encoder/fusion stages, the four hard-coded decoder stages, and the returned
list `[x4, dec3, dec2, dec1, dec0]`. -/
def forward (m : Model) (x : Shape) : Except FwdErr (List Shape) := do
  checkInputDivisible m x
  let x0 ← stage0 m x
  let x1 ← stage1 m x0
  let x2 ← stage2 m x0 x1
  let x3 ← stage3 m x0 x1 x2
  let x4 ← stage4 m x0 x1 x2 x3
  let dec3 ← decStage m 3 x3 x4
  let dec2 ← decStage m 2 x2 dec3
  let dec1 ← decStage m 1 x1 dec2
  let dec0 ← decStage m 0 x0 dec1
  pure [x4, dec3, dec2, dec1, dec0]

/-- `true` exactly on successful results. -/
def isOkE {ε α : Type} : Except ε α → Bool
  | .ok _ => true
  | .error _ => false

/-- Modelled from the spec: the fusion input of encoder level `i ≥ 1` is the
channel-wise concatenation of the encoder outputs of levels `j = 0..i-1`,
each max-pooled (ceiling mode) by factor `2^(i-j)`. -/
def specFusionInput (outs : List Shape) (i : Nat) : Except FwdErr Shape := do
  let pooled ← (List.range i).mapM fun j => do
    let s ← lookupM outs j
    pool (2 ^ (i - j)) s
  catList pooled

/-- The default constructor arguments of `AMDNet_EFFU` (the five-stage
configuration), with `in_channels` and `base_channels` left as parameters. -/
def defaultConfig (inCh b : Nat) : Config :=
  { inChannels := inCh
    baseChannels := b
    numStages := 5
    strides := [1, 1, 1, 1, 1]
    encNumConvs := [2, 2, 2, 2, 2]
    decNumConvs := [2, 2, 2, 2]
    downsamples := [true, true, true, true]
    encDilations := [1, 1, 1, 1, 1]
    decDilations := [1, 1, 1, 1]
    withCp := false
    normEval := false
    dcn := none
    plugins := none
    pretrained := .nil
    initCfg := none }

/-- The `self.init_cfg` value produced for a configuration that survives the
pretrained dispatch. -/
def initResOf (cfg : Config) : InitCfgResult :=
  match cfg.pretrained with
  | .str s => .pretrainedCkpt s
  | _ =>
    match cfg.initCfg with
    | none => .defaultInit
    | some _ => .given

/-- Whether the deprecation warning is emitted. -/
def warnFlag : Pretrained → Bool
  | .str _ => true
  | _ => false

/-- The model a valid configuration constructs. -/
def modelOf (cfg : Config) : Model := modelCore cfg (initResOf cfg)

/-- The six configuration-length constraints of `__init__` (over `ℤ`, as the
Python comparisons against `num_stages - 1` behave). -/
def validLens (cfg : Config) : Prop :=
  (cfg.strides.length : Int) = cfg.numStages ∧
  (cfg.encNumConvs.length : Int) = cfg.numStages ∧
  (cfg.decNumConvs.length : Int) = (cfg.numStages : Int) - 1 ∧
  (cfg.downsamples.length : Int) = (cfg.numStages : Int) - 1 ∧
  (cfg.encDilations.length : Int) = cfg.numStages ∧
  (cfg.decDilations.length : Int) = (cfg.numStages : Int) - 1

instance (cfg : Config) : Decidable (validLens cfg) := by
  unfold validLens
  infer_instance

/-- A configuration every check of `__init__` accepts. -/
def validCfg (cfg : Config) : Prop :=
  ¬(truthyPretrained cfg.pretrained = true ∧ cfg.initCfg.isSome = true) ∧
  cfg.pretrained ≠ .other ∧
  cfg.dcn = none ∧
  cfg.plugins = none ∧
  validLens cfg

instance (cfg : Config) : Decidable (validCfg cfg) := by
  unfold validCfg
  infer_instance

/-- A four-stage configuration (all sequence lengths matching
`num_stages = 4`), used to exercise the hard-coded five-stage forward. -/
def cfg4 : Config :=
  { inChannels := 3
    baseChannels := 64
    numStages := 4
    strides := [1, 1, 1, 1]
    encNumConvs := [2, 2, 2, 2]
    decNumConvs := [2, 2, 2]
    downsamples := [true, true, true]
    encDilations := [1, 1, 1, 1]
    decDilations := [1, 1, 1]
    withCp := false
    normEval := false
    dcn := none
    plugins := none
    pretrained := .nil
    initCfg := none }

/-- The model `cfg4` constructs. -/
def model4 : Model := modelOf cfg4

/-- The default configuration with `pretrained=''` (the empty string) and an
`init_cfg` supplied. -/
def cfgEmptyStr : Config :=
  { defaultConfig 3 64 with pretrained := .str "", initCfg := some () }

/-- The default configuration with a truthy non-string `pretrained` and an
`init_cfg` supplied. -/
def cfgOtherInit : Config :=
  { defaultConfig 3 64 with pretrained := .other, initCfg := some () }

/-- The model restricted to the module-list entries the forward pass can
reach: the first five encoder blocks and the first four fusion/decoder
blocks. -/
def truncModel (m : Model) : Model :=
  { m with
    effu_c2 := m.effu_c2.take 5
    effu_c1 := m.effu_c1.take 4
    effu_cbam := m.effu_cbam.take 4
    decoder := m.decoder.take 4 }

/-- State of one module in the flattened module tree (`self.modules()`):
whether it is a `_BatchNorm` instance, its `training` flag, its running
statistics (batch-norm running mean/var, abstracted to one value), and its
parameter/gradient state. -/
structure NetModule where
  isNorm : Bool
  training : Bool
  runningStats : Int
  requiresGrad : Bool
  grad : Option Int
deriving DecidableEq, Repr

/-- The framework's `nn.Module.train(mode)` (external primitive): sets the
`training` flag of every module in the tree to `mode`. -/
def trainBase (mode : Bool) (ms : List NetModule) : List NetModule :=
  ms.map fun m => { m with training := mode }

/-- `AMDNet_EFFU.train(mode)`: calls the base `train(mode)`, then, when
`mode and self.norm_eval`, calls `.eval()` (that is, sets `training` to
`false`) on every `_BatchNorm` module. -/
def amdnetTrain (normEval mode : Bool) (ms : List NetModule) : List NetModule :=
  let base := trainBase mode ms
  if mode ∧ normEval then
    base.map fun m => if m.isNorm then { m with training := false } else m
  else base

/-- Modelled from the spec: processing a batch updates a normalization
layer's running statistics (by the framework's momentum update, abstracted
as an arbitrary function `upd`) exactly when that layer's `training` flag is
set; no other module state changes. -/
def processBatch (upd : Int → Int) (ms : List NetModule) : List NetModule :=
  ms.map fun m =>
    if m.isNorm ∧ m.training then { m with runningStats := upd m.runningStats } else m

/-- Modelled from the spec: the backward pass computes a gradient for every
parameter with `requires_grad`, independently of any module's
training/evaluation mode. -/
def backwardPass (g : Int) (ms : List NetModule) : List NetModule :=
  ms.map fun m => if m.requiresGrad then { m with grad := some g } else m

/-! ## Helper lemmas -/

theorem pure_eq_ok {ε α : Type} (a : α) : (pure a : Except ε α) = .ok a := rfl

theorem ok_bind {ε α β : Type} (a : α) (f : α → Except ε β) :
    (Except.ok a >>= f : Except ε β) = f a := rfl

theorem error_bind {ε α β : Type} (e : ε) (f : α → Except ε β) :
    (Except.error e >>= f : Except ε β) = Except.error e := rfl

theorem bind_ok_inv {ε α β : Type} {e : Except ε α} {f : α → Except ε β} {b : β}
    (h : (e >>= f) = .ok b) : ∃ a, e = .ok a ∧ f a = .ok b := by
  cases e with
  | ok a => exact ⟨a, rfl, h⟩
  | error err => exact absurd h (by simp [error_bind])

theorem lookupM_ok_inv {α : Type} {l : List α} {i : Nat} {a : α}
    (h : lookupM l i = .ok a) : l.get? i = some a := by
  unfold lookupM at h
  split at h
  · cases h; assumption
  · cases h

theorem lookupM_lt_length {α : Type} {l : List α} {i : Nat} {a : α}
    (h : lookupM l i = .ok a) : i < l.length := by
  have h2 := lookupM_ok_inv h
  exact List.get?_eq_some.mp h2 |>.choose

theorem lookupM_take {α : Type} (l : List α) (n i : Nat) (h : i < n) :
    lookupM (l.take n) i = lookupM l i := by
  unfold lookupM
  rw [List.get?_eq_getElem?, List.get?_eq_getElem?, List.getElem?_take]
  simp [h]

theorem len_fold_append {α γ : Type} (f : List α × Nat → γ → List α × Nat)
    (hf : ∀ s c, ((f s c).1).length = s.1.length + 1) :
    ∀ (l : List γ) (s : List α × Nat), ((l.foldl f s).1).length = s.1.length + l.length := by
  intro l
  induction l with
  | nil => simp
  | cons x xs ih =>
    intro s
    rw [List.foldl_cons, ih, hf, List.length_cons]
    omega

theorem buildEffuC2_length (cfg : Config) : (buildEffuC2 cfg).length = cfg.numStages := by
  unfold buildEffuC2
  rw [len_fold_append _ (by intro s c; simp)]
  simp

theorem buildEffuCbam_length (cfg : Config) :
    (buildEffuCbam cfg).length = cfg.numStages - 1 := by
  simp [buildEffuCbam]

theorem buildEffuC1_length (cfg : Config) :
    (buildEffuC1 cfg).length = cfg.numStages - 1 := by
  simp [buildEffuC1]

theorem buildDecoder_length (cfg : Config) :
    (buildDecoder cfg).length = cfg.numStages - 1 := by
  simp [buildDecoder]

theorem mkModel_ok_inv {cfg : Config} {w : Bool} {m : Model}
    (h : mkModel cfg = .ok (w, m)) :
    ∃ ir, pretrainedDispatch cfg = .ok (w, ir) ∧ m = modelCore cfg ir := by
  unfold mkModel at h
  split at h
  · exact absurd h (by simp)
  split at h
  · exact absurd h (by simp)
  next warned initRes heq =>
    iterate 8
      (split at h
       · exact absurd h (by simp))
    injection h with h2
    injection h2 with hw hm
    subst hw
    exact ⟨initRes, heq, hm.symm⟩

theorem mkModel_eq_ok {cfg : Config} (h : validCfg cfg) :
    mkModel cfg = .ok (warnFlag cfg.pretrained, modelOf cfg) := by
  obtain ⟨h1, h2, h3, h4, l1, l2, l3, l4, l5, l6⟩ := h
  have hd : pretrainedDispatch cfg = .ok (warnFlag cfg.pretrained, initResOf cfg) := by
    unfold pretrainedDispatch warnFlag initResOf
    cases hp : cfg.pretrained
    · rfl
    · rfl
    · exact absurd hp h2
  unfold mkModel
  rw [if_neg (by simp_all), hd]
  dsimp only
  rw [if_neg (by simp [h3]), if_neg (by simp [h4]), if_neg (by simp [l1]),
    if_neg (by simp [l2]), if_neg (by simp [l3]), if_neg (by simp [l4]),
    if_neg (by simp [l5]), if_neg (by simp [l6])]
  rfl

theorem pool_ok (k : Nat) (x : Shape) (hh : 1 ≤ x.height) (hw : 1 ≤ x.width) (hk : 1 ≤ k) :
    pool k x = .ok ⟨x.batch, x.channels, ceilDiv x.height k, ceilDiv x.width k⟩ := by
  simp [pool, hh, hw, hk]

theorem upsample_ok (k : Nat) (x : Shape) (hh : 1 ≤ x.height) (hw : 1 ≤ x.width) :
    upsample k x = .ok ⟨x.batch, x.channels, x.height * k, x.width * k⟩ := by
  simp [upsample, hh, hw]

theorem cbam_ok (c : Nat) (x : Shape) (h : x.channels = c) : cbamApply c x = .ok x := by
  simp [cbamApply, h]

theorem conv3s1_ok (i o : Nat) (x : Shape) (hc : x.channels = i)
    (hh : 1 ≤ x.height) (hw : 1 ≤ x.width) :
    applyConv ⟨i, o, 3, 1, 1, 1⟩ x = .ok ⟨x.batch, o, x.height, x.width⟩ := by
  have a1 : 1 * (3 - 1) + 1 ≤ x.height + 2 * 1 := by omega
  have a2 : 1 * (3 - 1) + 1 ≤ x.width + 2 * 1 := by omega
  simp [applyConv, convOut, hc, a1, a2, Shape.mk.injEq]
  omega

theorem conv1s1_ok (i o : Nat) (x : Shape) (hc : x.channels = i)
    (hh : 1 ≤ x.height) (hw : 1 ≤ x.width) :
    applyConv ⟨i, o, 1, 1, 1, 0⟩ x = .ok ⟨x.batch, o, x.height, x.width⟩ := by
  simp [applyConv, convOut, hc, hh, hw, Shape.mk.injEq]

theorem block2_ok (i o : Nat) (cp : Bool) (x : Shape) (hc : x.channels = i)
    (hh : 1 ≤ x.height) (hw : 1 ≤ x.width) :
    BasicConvBlock.apply ⟨cp, basicConvs i o 2 1 1⟩ x = .ok ⟨x.batch, o, x.height, x.width⟩ := by
  have hb : basicConvs i o 2 1 1 = [⟨i, o, 3, 1, 1, 1⟩, ⟨o, o, 3, 1, 1, 1⟩] := rfl
  unfold BasicConvBlock.apply
  dsimp only
  rw [hb]
  simp only [List.foldlM]
  rw [conv3s1_ok i o x hc hh hw, ok_bind,
    conv3s1_ok o o ⟨x.batch, o, x.height, x.width⟩ rfl hh hw, ok_bind]
  rfl

theorem catList2_ok (a b : Shape) (h1 : a.batch = b.batch) (h2 : a.height = b.height)
    (h3 : a.width = b.width) :
    catList [a, b] = .ok ⟨a.batch, a.channels + b.channels, a.height, a.width⟩ := by
  simp [catList, List.foldlM, ok_bind, pure_eq_ok, h1, h2, h3]

theorem catList3_ok (a b c : Shape) (h1 : a.batch = b.batch) (h2 : a.height = b.height)
    (h3 : a.width = b.width) (h4 : a.batch = c.batch) (h5 : a.height = c.height)
    (h6 : a.width = c.width) :
    catList [a, b, c] =
      .ok ⟨a.batch, a.channels + b.channels + c.channels, a.height, a.width⟩ := by
  simp [catList, List.foldlM, ok_bind, pure_eq_ok, h1, h2, h3, h4, h5, h6,
    h1.symm.trans h4, h2.symm.trans h5, h3.symm.trans h6]

theorem catList4_ok (a b c d : Shape) (h1 : a.batch = b.batch) (h2 : a.height = b.height)
    (h3 : a.width = b.width) (h4 : a.batch = c.batch) (h5 : a.height = c.height)
    (h6 : a.width = c.width) (h7 : a.batch = d.batch) (h8 : a.height = d.height)
    (h9 : a.width = d.width) :
    catList [a, b, c, d] =
      .ok ⟨a.batch, a.channels + b.channels + c.channels + d.channels,
        a.height, a.width⟩ := by
  simp [catList, List.foldlM, ok_bind, pure_eq_ok, h1, h2, h3, h4, h5, h6, h7, h8, h9,
    h1.symm.trans h4, h2.symm.trans h5, h3.symm.trans h6,
    h1.symm.trans h7, h2.symm.trans h8, h3.symm.trans h9,
    h4.symm.trans h7, h5.symm.trans h8, h6.symm.trans h9]

theorem sum_map_range (f : Nat → Nat) : ∀ n : Nat,
    ((List.range n).map f).sum = ∑ j in Finset.range n, f j := by
  intro n
  induction n with
  | zero => simp
  | succ k ih =>
    rw [List.range_succ, List.map_append, List.sum_append, Finset.sum_range_succ, ih]
    simp

theorem rate_eq (m : Model) :
    wholeDownsampleRate m =
      2 ^ ((List.range' 1 (m.numStages - 1)).countP
        fun i => m.strides.getD i 0 == 2 || m.downsamples.getD (i - 1) false) := by
  unfold wholeDownsampleRate
  have key : ∀ (l : List Nat) (a : Nat),
      l.foldl
        (fun r i =>
          if m.strides.getD i 0 = 2 ∨ m.downsamples.getD (i - 1) false then r * 2 else r) a
        = a * 2 ^ (l.countP
            fun i => m.strides.getD i 0 == 2 || m.downsamples.getD (i - 1) false) := by
    intro l
    induction l with
    | nil => simp
    | cons x xs ih =>
      intro a
      by_cases h : m.strides.getD x 0 = 2 ∨ m.downsamples.getD (x - 1) false
      · rw [List.foldl_cons, if_pos h, ih, List.countP_cons]
        have hp : (m.strides.getD x 0 == 2 || m.downsamples.getD (x - 1) false) = true := by
          simpa using h
        rw [hp]
        simp [pow_add]
        ring
      · rw [List.foldl_cons, if_neg h, ih, List.countP_cons]
        have hp : (m.strides.getD x 0 == 2 || m.downsamples.getD (x - 1) false) = false := by
          simpa using h
        rw [hp]
        simp
  rw [key]
  ring

/-! ## Claim theorems -/

/-- Claim C8: in a `BasicConvBlock` built with given `{in_channels, out_channels,
num_convs, stride, dilation}` (and `dcn`, `plugins` absent), only the first of
the `num_convs` sequential 3×3 convolutions applies the requested stride (all
later ones use stride 1), the requested dilation with matching padding
applies to every convolution except the first (which uses dilation 1 and
padding 1), the first convolution maps `in_channels` to `out_channels` and
all later ones map `out_channels` to `out_channels`. -/
theorem c8_basic_block_stride_dilation (inCh outCh numConvs stride dilation : Nat)
    (cp : Bool) (blk : BasicConvBlock)
    (h : mkBasicConvBlock inCh outCh numConvs stride dilation cp none none = .ok blk) :
    blk.convs.length = numConvs ∧
    ∀ i, i < numConvs →
      (blk.convs.getD i default).kernel = 3 ∧
      (blk.convs.getD i default).stride = (if i = 0 then stride else 1) ∧
      (blk.convs.getD i default).dilation = (if i = 0 then 1 else dilation) ∧
      (blk.convs.getD i default).padding = (if i = 0 then 1 else dilation) ∧
      (blk.convs.getD i default).inCh = (if i = 0 then inCh else outCh) ∧
      (blk.convs.getD i default).outCh = outCh := by
  have hblk : blk = ⟨cp, basicConvs inCh outCh numConvs stride dilation⟩ := by
    unfold mkBasicConvBlock at h
    simp at h
    exact h.symm
  subst hblk
  refine ⟨by simp [basicConvs], ?_⟩
  intro i hi
  have hget : (basicConvs inCh outCh numConvs stride dilation).getD i default
      = if i = 0 then ⟨inCh, outCh, 3, stride, 1, 1⟩
        else ⟨outCh, outCh, 3, 1, dilation, dilation⟩ := by
    unfold basicConvs
    rw [List.getD_eq_getD_get?, List.get?_eq_getElem?]
    simp [List.getElem?_map, List.getElem?_range, hi]
  rw [hget]
  by_cases h0 : i = 0 <;> simp [h0]

/-- Claim C8 witness: the theorem applied to a concrete block
(`in=3, out=8, num_convs=3, stride=2, dilation=4`): the second convolution
uses stride 1 and dilation 4. -/
theorem c8_witness :
    ∃ blk, mkBasicConvBlock 3 8 3 2 4 false none none = .ok blk ∧
      blk.convs.length = 3 ∧
      (blk.convs.getD 1 default).stride = 1 ∧
      (blk.convs.getD 1 default).dilation = 4 ∧
      (blk.convs.getD 0 default).stride = 2 ∧
      (blk.convs.getD 0 default).dilation = 1 := by
  refine ⟨⟨false, basicConvs 3 8 3 2 4⟩, rfl, ?_⟩
  have h := c8_basic_block_stride_dilation 3 8 3 2 4 false ⟨false, basicConvs 3 8 3 2 4⟩ rfl
  exact ⟨h.1, (h.2 1 (by decide)).2.1, (h.2 1 (by decide)).2.2.1,
    (h.2 0 (by decide)).2.1, (h.2 0 (by decide)).2.2.1⟩

/-- Claim C5: switching the model to training mode (`train(mode=True)`) with
`norm_eval` enabled sets every module's `training` flag to `true` and then
forces every normalization sub-layer back to evaluation mode (and changes no
other module state), so a subsequent batch leaves every running statistic
unchanged, while the backward pass still computes gradients for every
parameter that requires them. -/
theorem c5_norm_eval_freezes_stats (ms : List NetModule) :
    amdnetTrain true true ms = ms.map (fun m => { m with training := !m.isNorm }) ∧
    (∀ upd, processBatch upd (amdnetTrain true true ms) = amdnetTrain true true ms) ∧
    (∀ g, backwardPass g (amdnetTrain true true ms) =
      (amdnetTrain true true ms).map
        fun m => if m.requiresGrad then { m with grad := some g } else m) := by
  have h1 : amdnetTrain true true ms = ms.map (fun m => { m with training := !m.isNorm }) := by
    unfold amdnetTrain trainBase
    rw [if_pos ⟨rfl, rfl⟩, List.map_map]
    apply List.map_congr_left
    intro a _
    by_cases hn : a.isNorm <;> simp [Function.comp, hn]
  refine ⟨h1, ?_, fun g => rfl⟩
  intro upd
  rw [h1]
  unfold processBatch
  rw [List.map_map]
  apply List.map_congr_left
  intro a _
  by_cases hn : a.isNorm <;> simp [Function.comp, hn]

/-- Claim C6 counterexample: the claim fails on the code in two places.  With
`pretrained=''` (the empty string, falsy in Python) and an `init_cfg`
supplied, construction does *not* fail with the assertion — it succeeds (and
silently replaces the supplied `init_cfg`).  With a truthy non-string
`pretrained` and an `init_cfg` supplied, construction fails with the
assertion, *not* with the type error the claim promises for every non-string
non-null `pretrained`. -/
theorem c6_counterexample :
    mkModel cfgEmptyStr = .ok (true, modelOf cfgEmptyStr) ∧
    (modelOf cfgEmptyStr).initCfg = .pretrainedCkpt "" ∧
    mkModel cfgOtherInit = .error .assertPretrainedInitCfg ∧
    mkModel cfgOtherInit ≠ .error .typeErrorPretrained := by
  refine ⟨by decide, by decide, by decide, by decide⟩

/-- Claim C6 (amended): construction fails with the assertion when a *truthy*
pretrained value (a non-empty string, or a truthy non-string object) and an
`init_cfg` are both supplied; with `init_cfg` absent, a pretrained value that
is neither a string nor `None` fails with a type error; and a string
pretrained path with `init_cfg` absent produces the deprecation warning and
construction proceeds, recording a `Pretrained` checkpoint `init_cfg`. -/
theorem c6_pretrained_initcfg_errors :
    (∀ cfg : Config, truthyPretrained cfg.pretrained = true → cfg.initCfg.isSome = true →
      mkModel cfg = .error .assertPretrainedInitCfg) ∧
    (∀ cfg : Config, cfg.pretrained = .other → cfg.initCfg = none →
      mkModel cfg = .error .typeErrorPretrained) ∧
    (∀ (cfg : Config) (s : String), cfg.pretrained = .str s → cfg.initCfg = none →
      cfg.dcn = none → cfg.plugins = none → validLens cfg →
      mkModel cfg = .ok (true, modelOf cfg) ∧
      (modelOf cfg).initCfg = .pretrainedCkpt s) := by
  refine ⟨?_, ?_, ?_⟩
  · intro cfg h1 h2
    unfold mkModel
    rw [if_pos ⟨h1, h2⟩]
  · intro cfg h1 h2
    unfold mkModel
    rw [if_neg (by simp [h2])]
    rw [show pretrainedDispatch cfg = .error .typeErrorPretrained from by
      unfold pretrainedDispatch; rw [h1]]
  · intro cfg s h1 h2 h3 h4 h5
    have hv : validCfg cfg := ⟨by simp [h2], by simp [h1], h3, h4, h5⟩
    constructor
    · have h6 := mkModel_eq_ok hv
      rw [h1] at h6
      exact h6
    · show (modelCore cfg (initResOf cfg)).initCfg = .pretrainedCkpt s
      unfold modelCore initResOf
      rw [h1]

/-- Claim C6 witness: the amended theorem applied to the default configuration
with `pretrained='ckpt.pth'`: the warning flag is `true` and construction
succeeds. -/
theorem c6_witness :
    mkModel { defaultConfig 3 64 with pretrained := .str "ckpt.pth" } =
      .ok (true, modelOf { defaultConfig 3 64 with pretrained := .str "ckpt.pth" }) :=
  (c6_pretrained_initcfg_errors.2.2 _ "ckpt.pth" rfl rfl rfl rfl (by decide)).1

/-- Claim C2: for every model state and every input whose height or width is
not divisible by the whole downsample rate, the forward pass fails with the
assertion error naming the offending dimensions and the rate; the result is
the same whatever the convolution/attention/decoder blocks are (the
assertion fires before any of them is consulted); and the rate is
`2^(number of stage indices i ≥ 1 with strides[i] = 2 or downsamples[i-1])`,
as the claim computes it. -/
theorem c2_divisibility_assertion (m : Model) (x : Shape)
    (h : ¬(x.height % wholeDownsampleRate m = 0 ∧ x.width % wholeDownsampleRate m = 0)) :
    forward m x = .error (.assertDivisible x.height x.width (wholeDownsampleRate m)) ∧
    (∀ c2 c1 cb dec,
      forward { m with effu_c2 := c2, effu_c1 := c1, effu_cbam := cb, decoder := dec } x
        = .error (.assertDivisible x.height x.width (wholeDownsampleRate m))) ∧
    wholeDownsampleRate m =
      2 ^ ((List.range' 1 (m.numStages - 1)).countP
        fun i => m.strides.getD i 0 == 2 || m.downsamples.getD (i - 1) false) := by
  have hc : checkInputDivisible m x
      = .error (.assertDivisible x.height x.width (wholeDownsampleRate m)) := by
    unfold checkInputDivisible
    rw [if_neg h]
  refine ⟨?_, ?_, rate_eq m⟩
  · unfold forward
    rw [hc, error_bind]
  · intro c2 c1 cb dec
    have hc2 : checkInputDivisible
        { m with effu_c2 := c2, effu_c1 := c1, effu_cbam := cb, decoder := dec } x
        = .error (.assertDivisible x.height x.width (wholeDownsampleRate m)) := hc
    unfold forward
    rw [hc2, error_bind]

/-- Claim C2 witness: the theorem applied to the default model and a 33×64
input: the forward pass fails with the assertion naming `(33, 64)` and the
rate 16. -/
theorem c2_witness :
    forward (modelOf (defaultConfig 3 64)) ⟨2, 3, 33, 64⟩ =
      .error (.assertDivisible 33 64 (wholeDownsampleRate (modelOf (defaultConfig 3 64)))) :=
  (c2_divisibility_assertion (modelOf (defaultConfig 3 64)) ⟨2, 3, 33, 64⟩ (by decide)).1

/-- Which configuration sequence a length error names, and that the named
sequence is indeed offending (its recorded length differs from the expected
count). -/
def lenErrOffends : CtorErr → Config → Prop
  | .lenStrides l ns, cfg =>
    l = cfg.strides.length ∧ ns = cfg.numStages ∧ (l : Int) ≠ ns
  | .lenEncNumConvs l ns, cfg =>
    l = cfg.encNumConvs.length ∧ ns = cfg.numStages ∧ (l : Int) ≠ ns
  | .lenDecNumConvs l ns, cfg =>
    l = cfg.decNumConvs.length ∧ ns = cfg.numStages ∧ (l : Int) ≠ (ns : Int) - 1
  | .lenDownsamples l ns, cfg =>
    l = cfg.downsamples.length ∧ ns = cfg.numStages ∧ (l : Int) ≠ (ns : Int) - 1
  | .lenEncDilations l ns, cfg =>
    l = cfg.encDilations.length ∧ ns = cfg.numStages ∧ (l : Int) ≠ ns
  | .lenDecDilations l ns, cfg =>
    l = cfg.decDilations.length ∧ ns = cfg.numStages ∧ (l : Int) ≠ (ns : Int) - 1
  | _, _ => False

theorem mkModel_nil_reduce (cfg : Config) (hp : cfg.pretrained = .nil)
    (hd : cfg.dcn = none) (hg : cfg.plugins = none) :
    mkModel cfg =
      (if (cfg.strides.length : Int) ≠ cfg.numStages then
        .error (.lenStrides cfg.strides.length cfg.numStages)
      else if (cfg.encNumConvs.length : Int) ≠ cfg.numStages then
        .error (.lenEncNumConvs cfg.encNumConvs.length cfg.numStages)
      else if (cfg.decNumConvs.length : Int) ≠ (cfg.numStages : Int) - 1 then
        .error (.lenDecNumConvs cfg.decNumConvs.length cfg.numStages)
      else if (cfg.downsamples.length : Int) ≠ (cfg.numStages : Int) - 1 then
        .error (.lenDownsamples cfg.downsamples.length cfg.numStages)
      else if (cfg.encDilations.length : Int) ≠ cfg.numStages then
        .error (.lenEncDilations cfg.encDilations.length cfg.numStages)
      else if (cfg.decDilations.length : Int) ≠ (cfg.numStages : Int) - 1 then
        .error (.lenDecDilations cfg.decDilations.length cfg.numStages)
      else .ok (false, modelCore cfg (initResOf cfg))) := by
  unfold mkModel
  rw [if_neg (by simp [hp, truthyPretrained])]
  rw [show pretrainedDispatch cfg = .ok (false, initResOf cfg) from by
    unfold pretrainedDispatch initResOf; rw [hp]]
  dsimp only
  rw [if_neg (by simp [hd]), if_neg (by simp [hg])]

/-- Claim C7: with `pretrained`, `dcn` and `plugins` absent, construction
raises an assertion error naming an offending configuration sequence and the
expected stage count whenever any of the six length constraints fails, and
succeeds (producing the model) whenever all six hold. -/
theorem c7_length_assertions :
    (∀ cfg : Config, cfg.pretrained = .nil → cfg.dcn = none → cfg.plugins = none →
      ¬ validLens cfg → ∃ e, mkModel cfg = .error e ∧ lenErrOffends e cfg) ∧
    (∀ cfg : Config, cfg.pretrained = .nil → cfg.dcn = none → cfg.plugins = none →
      validLens cfg → mkModel cfg = .ok (false, modelOf cfg)) := by
  constructor
  · intro cfg hp hd hg hnv
    rw [mkModel_nil_reduce cfg hp hd hg]
    by_cases k1 : (cfg.strides.length : Int) = cfg.numStages
    case neg =>
      exact ⟨.lenStrides cfg.strides.length cfg.numStages,
        by rw [if_pos k1], ⟨rfl, rfl, k1⟩⟩
    by_cases k2 : (cfg.encNumConvs.length : Int) = cfg.numStages
    case neg =>
      exact ⟨.lenEncNumConvs cfg.encNumConvs.length cfg.numStages,
        by rw [if_neg (by simp [k1]), if_pos k2], ⟨rfl, rfl, k2⟩⟩
    by_cases k3 : (cfg.decNumConvs.length : Int) = (cfg.numStages : Int) - 1
    case neg =>
      exact ⟨.lenDecNumConvs cfg.decNumConvs.length cfg.numStages,
        by rw [if_neg (by simp [k1]), if_neg (by simp [k2]), if_pos k3], ⟨rfl, rfl, k3⟩⟩
    by_cases k4 : (cfg.downsamples.length : Int) = (cfg.numStages : Int) - 1
    case neg =>
      exact ⟨.lenDownsamples cfg.downsamples.length cfg.numStages,
        by rw [if_neg (by simp [k1]), if_neg (by simp [k2]), if_neg (by simp [k3]),
          if_pos k4], ⟨rfl, rfl, k4⟩⟩
    by_cases k5 : (cfg.encDilations.length : Int) = cfg.numStages
    case neg =>
      exact ⟨.lenEncDilations cfg.encDilations.length cfg.numStages,
        by rw [if_neg (by simp [k1]), if_neg (by simp [k2]), if_neg (by simp [k3]),
          if_neg (by simp [k4]), if_pos k5], ⟨rfl, rfl, k5⟩⟩
    by_cases k6 : (cfg.decDilations.length : Int) = (cfg.numStages : Int) - 1
    case neg =>
      exact ⟨.lenDecDilations cfg.decDilations.length cfg.numStages,
        by rw [if_neg (by simp [k1]), if_neg (by simp [k2]), if_neg (by simp [k3]),
          if_neg (by simp [k4]), if_neg (by simp [k5]), if_pos k6], ⟨rfl, rfl, k6⟩⟩
    exact absurd ⟨k1, k2, k3, k4, k5, k6⟩ hnv
  · intro cfg hp hd hg hv
    have h6 := mkModel_eq_ok ⟨by simp [hp, truthyPretrained], by simp [hp], hd, hg, hv⟩
    rw [hp] at h6
    exact h6

/-- Claim C7 witness: the theorem applied to the default configuration with a
3-element `strides`: construction fails with the assertion naming `strides`,
its length 3 and the stage count 5; with the default sequences it
succeeds. -/
theorem c7_witness :
    (∃ e, mkModel { defaultConfig 3 64 with strides := [1, 1, 1] } = .error e ∧
      lenErrOffends e { defaultConfig 3 64 with strides := [1, 1, 1] }) ∧
    mkModel (defaultConfig 3 64) = .ok (false, modelOf (defaultConfig 3 64)) :=
  ⟨c7_length_assertions.1 _ rfl rfl rfl (by decide),
   c7_length_assertions.2 _ rfl rfl rfl (by decide)⟩

/-- Claim C9: `dec_num_convs` and `dec_dilations` are validated for length
only and never used to build the network: two configurations that differ
only in those values (not lengths) construct the *same* result, and every
decoder block is built with exactly two convolutions, each with dilation 1
(and padding 1, stride 1). -/
theorem c9_dec_params_unused (cfg : Config) (dnc dd : List Nat)
    (hdnc : dnc.length = cfg.decNumConvs.length)
    (hdd : dd.length = cfg.decDilations.length) :
    mkModel { cfg with decNumConvs := dnc, decDilations := dd } = mkModel cfg ∧
    (∀ w m, mkModel cfg = .ok (w, m) →
      ∀ i, i < m.decoder.length →
        (m.decoder.getD i default).convs.length = 2 ∧
        ∀ j, j < 2 →
          ((m.decoder.getD i default).convs.getD j default).dilation = 1 ∧
          ((m.decoder.getD i default).convs.getD j default).stride = 1 ∧
          ((m.decoder.getD i default).convs.getD j default).padding = 1) := by
  constructor
  · unfold mkModel
    dsimp only
    rw [hdnc, hdd]
    rfl
  · intro w m hm i hi
    obtain ⟨ir, _, hm2⟩ := mkModel_ok_inv hm
    subst hm2
    have hi2 : i < cfg.numStages - 1 := by
      have hlen : (modelCore cfg ir).decoder.length = cfg.numStages - 1 :=
        buildDecoder_length cfg
      omega
    have hd : (modelCore cfg ir).decoder.getD i default
        = ⟨cfg.withCp,
            basicConvs ((encChannels cfg).getD i 0 + (encChannels cfg).getD (i + 1) 0)
              ((encChannels cfg).getD i 0) 2 1 1⟩ := by
      show (buildDecoder cfg).getD i default = _
      unfold buildDecoder
      rw [List.getD_eq_getD_get?, List.get?_eq_getElem?]
      simp [List.getElem?_map, List.getElem?_range, hi2]
    rw [hd]
    refine ⟨rfl, ?_⟩
    intro j hj
    match j, hj with
    | 0, _ => exact ⟨rfl, rfl, rfl⟩
    | 1, _ => exact ⟨rfl, rfl, rfl⟩

/-- Claim C9 witness: the theorem applied to the default configuration with
`dec_num_convs=(7,7,7,7)` and `dec_dilations=(9,9,9,9)`: the constructed
result is identical to the default one, and decoder block 2's second
convolution has dilation 1. -/
theorem c9_witness :
    mkModel { defaultConfig 3 64 with
      decNumConvs := [7, 7, 7, 7], decDilations := [9, 9, 9, 9] } =
      mkModel (defaultConfig 3 64) ∧
    ((modelOf (defaultConfig 3 64)).decoder.getD 2 default).convs.length = 2 ∧
    (((modelOf (defaultConfig 3 64)).decoder.getD 2 default).convs.getD 1 default).dilation = 1 := by
  have h := c9_dec_params_unused (defaultConfig 3 64) [7, 7, 7, 7] [9, 9, 9, 9] rfl rfl
  have h2 := h.2 false (modelOf (defaultConfig 3 64)) (by decide) 2 (by decide)
  exact ⟨h.1, h2.1, (h2.2 1 (by decide)).1⟩

theorem encChannels_getD (cfg : Config) (i : Nat) (hi : i < cfg.numStages) :
    (encChannels cfg).getD i 0 = cfg.baseChannels * 2 ^ i := by
  unfold encChannels
  rw [List.getD_eq_getD_get?, List.get?_eq_getElem?]
  simp [List.getElem?_range, hi]

theorem buildDecoder_getD (cfg : Config) (i : Nat) (hi : i < cfg.numStages - 1) :
    (buildDecoder cfg).getD i default
      = ⟨cfg.withCp,
          basicConvs ((encChannels cfg).getD i 0 + (encChannels cfg).getD (i + 1) 0)
            ((encChannels cfg).getD i 0) 2 1 1⟩ := by
  unfold buildDecoder
  rw [List.getD_eq_getD_get?, List.get?_eq_getElem?]
  simp [List.getElem?_range, hi]

theorem encChannels_take_sum (cfg : Config) (i : Nat) (hi : i < cfg.numStages - 1) :
    ((encChannels cfg).take (1 + i)).sum
      = ∑ j in Finset.range (i + 1), cfg.baseChannels * 2 ^ j := by
  unfold encChannels
  rw [← List.map_take, List.take_range]
  have hmin : min (1 + i) cfg.numStages = 1 + i := by omega
  rw [hmin, sum_map_range, Nat.add_comm 1 i]

/-- Claim C3: the fusion block of encoder level `i ≥ 1` gates the concatenation
of the encoder outputs of levels `0..i-1`, each max-pooled (ceiling mode) by
`2^(i-j)` — the hard-coded pooled concatenations of `forward` equal the
general formula at every level 1..4; the CBAM gate and the following
channel-reduction convolution at list index `i-1` both expect the total
channel width `∑_{j<i} base_channels·2^j`, and that convolution is 1×1 with
stride 1; the number of fusion (CBAM and 1×1) and decoder blocks each equals
`num_stages - 1`; and decoder block `i` expects input channel width
`base_channels·2^i + base_channels·2^(i+1)`. -/
theorem c3_fusion_topology (cfg : Config) (w : Bool) (m : Model)
    (hm : mkModel cfg = .ok (w, m)) :
    m.effu_cbam.length = cfg.numStages - 1 ∧
    m.effu_c1.length = cfg.numStages - 1 ∧
    m.decoder.length = cfg.numStages - 1 ∧
    (∀ i, i < cfg.numStages - 1 →
      m.effu_cbam.getD i 0 = ∑ j in Finset.range (i + 1), cfg.baseChannels * 2 ^ j ∧
      (m.effu_c1.getD i default).inCh = ∑ j in Finset.range (i + 1), cfg.baseChannels * 2 ^ j ∧
      (m.effu_c1.getD i default).kernel = 1 ∧
      (m.effu_c1.getD i default).stride = 1 ∧
      ((m.decoder.getD i default).convs.getD 0 default).inCh
        = cfg.baseChannels * 2 ^ i + cfg.baseChannels * 2 ^ (i + 1)) ∧
    (∀ s0 s1 s2 s3 : Shape,
      fuseInput1 m s0 = specFusionInput [s0, s1, s2, s3] 1 ∧
      fuseInput2 m s0 s1 = specFusionInput [s0, s1, s2, s3] 2 ∧
      fuseInput3 m s0 s1 s2 = specFusionInput [s0, s1, s2, s3] 3 ∧
      fuseInput4 m s0 s1 s2 s3 = specFusionInput [s0, s1, s2, s3] 4) := by
  obtain ⟨ir, _, hm2⟩ := mkModel_ok_inv hm
  subst hm2
  refine ⟨buildEffuCbam_length cfg, buildEffuC1_length cfg, buildDecoder_length cfg,
    ?_, ?_⟩
  · intro i hi
    have hcb : (buildEffuCbam cfg).getD i 0 = ((encChannels cfg).take (1 + i)).sum := by
      unfold buildEffuCbam
      rw [List.getD_eq_getD_get?, List.get?_eq_getElem?]
      simp [List.getElem?_range', hi]
    have hc1 : (buildEffuC1 cfg).getD i default
        = ⟨((encChannels cfg).take (1 + i)).sum, (encChannels cfg).getD (1 + i - 1) 0,
            1, 1, 1, 0⟩ := by
      unfold buildEffuC1
      rw [List.getD_eq_getD_get?, List.get?_eq_getElem?]
      simp [List.getElem?_range', hi]
    refine ⟨?_, ?_, ?_, ?_, ?_⟩
    · show (buildEffuCbam cfg).getD i 0 = _
      rw [hcb, encChannels_take_sum cfg i hi]
    · show ((buildEffuC1 cfg).getD i default).inCh = _
      rw [hc1, encChannels_take_sum cfg i hi]
    · show ((buildEffuC1 cfg).getD i default).kernel = 1
      rw [hc1]
    · show ((buildEffuC1 cfg).getD i default).stride = 1
      rw [hc1]
    · show (((buildDecoder cfg).getD i default).convs.getD 0 default).inCh = _
      rw [buildDecoder_getD cfg i hi]
      show (encChannels cfg).getD i 0 + (encChannels cfg).getD (i + 1) 0 = _
      rw [encChannels_getD cfg i (by omega), encChannels_getD cfg (i + 1) (by omega)]
  · intro s0 s1 s2 s3
    refine ⟨?_, ?_, ?_, ?_⟩
    · show pool 2 s0 = _
      unfold specFusionInput
      cases hp : pool 2 s0 with
      | error e =>
        simp [List.mapM, List.mapM.loop, lookupM, hp, ok_bind, error_bind, pure_eq_ok,
          catList, List.foldlM]
      | ok a =>
        simp [List.mapM, List.mapM.loop, lookupM, hp, ok_bind, error_bind, pure_eq_ok,
          catList, List.foldlM]
    · show (do
        let a ← pool 4 s0
        let b ← pool 2 s1
        catList [a, b]) = _
      unfold specFusionInput
      cases hp : pool 4 s0 with
      | error e => simp [List.mapM, List.mapM.loop, lookupM, hp, ok_bind, error_bind, pure_eq_ok]
      | ok a =>
        cases hq : pool 2 s1 with
        | error e =>
          simp [List.mapM, List.mapM.loop, lookupM, hp, hq, ok_bind, error_bind, pure_eq_ok]
        | ok b =>
          simp [List.mapM, List.mapM.loop, lookupM, hp, hq, ok_bind, error_bind, pure_eq_ok]
    · show (do
        let a ← pool 8 s0
        let b ← pool 4 s1
        let c ← pool 2 s2
        catList [a, b, c]) = _
      unfold specFusionInput
      cases hp : pool 8 s0 with
      | error e => simp [List.mapM, List.mapM.loop, lookupM, hp, ok_bind, error_bind, pure_eq_ok]
      | ok a =>
        cases hq : pool 4 s1 with
        | error e =>
          simp [List.mapM, List.mapM.loop, lookupM, hp, hq, ok_bind, error_bind, pure_eq_ok]
        | ok b =>
          cases hr : pool 2 s2 with
          | error e =>
            simp [List.mapM, List.mapM.loop, lookupM, hp, hq, hr, ok_bind, error_bind,
              pure_eq_ok]
          | ok c =>
            simp [List.mapM, List.mapM.loop, lookupM, hp, hq, hr, ok_bind, error_bind,
              pure_eq_ok]
    · show (do
        let a ← pool 16 s0
        let b ← pool 8 s1
        let c ← pool 4 s2
        let d ← pool 2 s3
        catList [a, b, c, d]) = _
      unfold specFusionInput
      cases hp : pool 16 s0 with
      | error e => simp [List.mapM, List.mapM.loop, lookupM, hp, ok_bind, error_bind, pure_eq_ok]
      | ok a =>
        cases hq : pool 8 s1 with
        | error e =>
          simp [List.mapM, List.mapM.loop, lookupM, hp, hq, ok_bind, error_bind, pure_eq_ok]
        | ok b =>
          cases hr : pool 4 s2 with
          | error e =>
            simp [List.mapM, List.mapM.loop, lookupM, hp, hq, hr, ok_bind, error_bind,
              pure_eq_ok]
          | ok c =>
            cases hs : pool 2 s3 with
            | error e =>
              simp [List.mapM, List.mapM.loop, lookupM, hp, hq, hr, hs, ok_bind, error_bind,
                pure_eq_ok]
            | ok d =>
              simp [List.mapM, List.mapM.loop, lookupM, hp, hq, hr, hs, ok_bind, error_bind,
                pure_eq_ok]

/-- Claim C3 witness: the theorem applied to the default configuration: three
fusion-block channel widths 64, 192 (= 64 + 128), 448, 960, four blocks of
each kind, and decoder block 2 expecting 256 + 512 = 768 input channels. -/
theorem c3_witness :
    (modelOf (defaultConfig 3 64)).effu_cbam.length = 4 ∧
    (modelOf (defaultConfig 3 64)).effu_cbam.getD 2 0 = ∑ j in Finset.range 3, 64 * 2 ^ j ∧
    (((modelOf (defaultConfig 3 64)).decoder.getD 2 default).convs.getD 0 default).inCh
      = 64 * 2 ^ 2 + 64 * 2 ^ 3 := by
  have h := c3_fusion_topology (defaultConfig 3 64) false (modelOf (defaultConfig 3 64))
    (by decide)
  exact ⟨h.1, (h.2.2.2.1 2 (by decide)).1, (h.2.2.2.1 2 (by decide)).2.2.2.2⟩

/-- Claim C10: the `downsamples` flags influence only the forward-time
divisibility assertion: the construction is identical except for the
recorded flags (in particular the pooling factors stay 2/4/8/16), and on any
input that both models' checks accept, the forward passes coincide. -/
theorem c10_downsamples_only_gate (cfg : Config) (d2 : List Bool)
    (hv : validCfg cfg) (hlen : d2.length = cfg.downsamples.length) :
    mkModel cfg = .ok (warnFlag cfg.pretrained, modelOf cfg) ∧
    mkModel { cfg with downsamples := d2 }
      = .ok (warnFlag cfg.pretrained, { modelOf cfg with downsamples := d2 }) ∧
    ((modelOf cfg).pool2 = 2 ∧ (modelOf cfg).pool4 = 4 ∧
      (modelOf cfg).pool8 = 8 ∧ (modelOf cfg).pool16 = 16 ∧
      ({ modelOf cfg with downsamples := d2 } : Model).pool2 = (modelOf cfg).pool2 ∧
      ({ modelOf cfg with downsamples := d2 } : Model).pool4 = (modelOf cfg).pool4 ∧
      ({ modelOf cfg with downsamples := d2 } : Model).pool8 = (modelOf cfg).pool8 ∧
      ({ modelOf cfg with downsamples := d2 } : Model).pool16 = (modelOf cfg).pool16) ∧
    (∀ x : Shape,
      checkInputDivisible (modelOf cfg) x = .ok () →
      checkInputDivisible { modelOf cfg with downsamples := d2 } x = .ok () →
      forward (modelOf cfg) x = forward { modelOf cfg with downsamples := d2 } x) := by
  obtain ⟨h1, h2, h3, h4, l1, l2, l3, l4, l5, l6⟩ := hv
  have hv2 : validCfg { cfg with downsamples := d2 } := by
    refine ⟨h1, h2, h3, h4, l1, l2, l3, ?_, l5, l6⟩
    show (d2.length : Int) = (cfg.numStages : Int) - 1
    rw [hlen]
    exact l4
  refine ⟨mkModel_eq_ok ⟨h1, h2, h3, h4, l1, l2, l3, l4, l5, l6⟩,
    mkModel_eq_ok hv2, ⟨rfl, rfl, rfl, rfl, rfl, rfl, rfl, rfl⟩, ?_⟩
  intro x hc1 hc2
  unfold forward
  rw [hc1, hc2]
  rfl

/-- Claim C10 witness: the theorem applied to the default configuration
against `downsamples=(False,False,False,False)` on a 16×16 input (accepted
by both: rates 16 and 1): the two forward passes coincide. -/
theorem c10_witness :
    forward (modelOf (defaultConfig 3 64)) ⟨1, 3, 16, 16⟩ =
      forward { modelOf (defaultConfig 3 64) with
        downsamples := [false, false, false, false] } ⟨1, 3, 16, 16⟩ :=
  (c10_downsamples_only_gate (defaultConfig 3 64) [false, false, false, false]
    (by decide) (by decide)).2.2.2 ⟨1, 3, 16, 16⟩ (by decide) (by decide)

theorem mkModel_list_lengths {cfg : Config} {w : Bool} {m : Model}
    (hm : mkModel cfg = .ok (w, m)) :
    m.effu_c2.length = cfg.numStages ∧
    m.effu_c1.length = cfg.numStages - 1 ∧
    m.effu_cbam.length = cfg.numStages - 1 ∧
    m.decoder.length = cfg.numStages - 1 := by
  obtain ⟨ir, _, hm2⟩ := mkModel_ok_inv hm
  subst hm2
  exact ⟨buildEffuC2_length cfg, buildEffuC1_length cfg, buildEffuCbam_length cfg,
    buildDecoder_length cfg⟩

theorem stage0_trunc (m : Model) (x : Shape) : stage0 (truncModel m) x = stage0 m x := by
  unfold stage0 truncModel
  dsimp only
  rw [lookupM_take m.effu_c2 5 0 (by omega)]

theorem stage1_trunc (m : Model) (x0 : Shape) : stage1 (truncModel m) x0 = stage1 m x0 := by
  unfold stage1 fuseInput1 truncModel
  dsimp only
  rw [lookupM_take m.effu_c2 5 1 (by omega), lookupM_take m.effu_c1 4 0 (by omega),
    lookupM_take m.effu_cbam 4 0 (by omega)]

theorem stage2_trunc (m : Model) (x0 x1 : Shape) :
    stage2 (truncModel m) x0 x1 = stage2 m x0 x1 := by
  unfold stage2 fuseInput2 truncModel
  dsimp only
  rw [lookupM_take m.effu_c2 5 2 (by omega), lookupM_take m.effu_c1 4 1 (by omega),
    lookupM_take m.effu_cbam 4 1 (by omega)]

theorem stage3_trunc (m : Model) (x0 x1 x2 : Shape) :
    stage3 (truncModel m) x0 x1 x2 = stage3 m x0 x1 x2 := by
  unfold stage3 fuseInput3 truncModel
  dsimp only
  rw [lookupM_take m.effu_c2 5 3 (by omega), lookupM_take m.effu_c1 4 2 (by omega),
    lookupM_take m.effu_cbam 4 2 (by omega)]

theorem stage4_trunc (m : Model) (x0 x1 x2 x3 : Shape) :
    stage4 (truncModel m) x0 x1 x2 x3 = stage4 m x0 x1 x2 x3 := by
  unfold stage4 fuseInput4 truncModel
  dsimp only
  rw [lookupM_take m.effu_c2 5 4 (by omega), lookupM_take m.effu_c1 4 3 (by omega),
    lookupM_take m.effu_cbam 4 3 (by omega)]

theorem decStage_trunc (m : Model) (i : Nat) (hi : i < 4) (a b : Shape) :
    decStage (truncModel m) i a b = decStage m i a b := by
  unfold decStage truncModel
  dsimp only
  rw [lookupM_take m.decoder 4 i hi]

/-- Claim C4 counterexample: the claim says "any forward call fails with an
out-of-range module-list index" for a constructible `num_stages < 5`
configuration, but a forward call on a non-divisible input fails with the
divisibility assertion instead (the assertion runs first). -/
theorem c4_counterexample :
    mkModel cfg4 = .ok (false, model4) ∧
    forward model4 ⟨1, 3, 4, 4⟩ = .error (.assertDivisible 4 4 8) := ⟨rfl, rfl⟩

/-- Claim C4 (amended): the forward pass is hard-coded to exactly five encoder
levels and four decoder levels: for every configuration with
`num_stages < 5` that passes construction, no forward call on any input
produces a result (when the input passes the divisibility check and the
earlier stages evaluate, the failure is the out-of-range module-list index,
as the concrete 8×8 run shows); the module lists are built with
`num_stages` resp. `num_stages - 1` entries, and the forward pass reads
only the first five encoder and first four fusion/decoder entries, so for
`num_stages > 5` the extra blocks are constructed but never evaluated and
cannot influence the output. -/
theorem c4_forward_hardcoded_five :
    (∀ (cfg : Config) (w : Bool) (m : Model) (x : Shape),
      cfg.numStages < 5 → mkModel cfg = .ok (w, m) → isOkE (forward m x) = false) ∧
    (∀ (m : Model) (x : Shape), forward m x = forward (truncModel m) x) ∧
    (∀ (cfg : Config) (w : Bool) (m : Model), mkModel cfg = .ok (w, m) →
      m.effu_c2.length = cfg.numStages ∧ m.effu_c1.length = cfg.numStages - 1 ∧
      m.effu_cbam.length = cfg.numStages - 1 ∧ m.decoder.length = cfg.numStages - 1) ∧
    forward model4 ⟨1, 3, 8, 8⟩ = .error .indexOOR := by
  refine ⟨?_, ?_, fun cfg w m hm => mkModel_list_lengths hm, by rfl⟩
  · intro cfg w m x h5 hm
    cases hfo : forward m x with
    | error e => rfl
    | ok r =>
      exfalso
      unfold forward at hfo
      obtain ⟨u0, hc, hfo⟩ := bind_ok_inv hfo
      obtain ⟨x0, hs0, hfo⟩ := bind_ok_inv hfo
      obtain ⟨x1, hs1, hfo⟩ := bind_ok_inv hfo
      obtain ⟨x2, hs2, hfo⟩ := bind_ok_inv hfo
      obtain ⟨x3, hs3, hfo⟩ := bind_ok_inv hfo
      obtain ⟨x4, hs4, hfo⟩ := bind_ok_inv hfo
      unfold stage4 at hs4
      obtain ⟨c2, hl, _⟩ := bind_ok_inv hs4
      have hlt := lookupM_lt_length hl
      have hlen := (mkModel_list_lengths hm).1
      omega
  · intro m x
    have hck : checkInputDivisible (truncModel m) x = checkInputDivisible m x := rfl
    have d3 : ∀ a b : Shape, decStage (truncModel m) 3 a b = decStage m 3 a b :=
      decStage_trunc m 3 (by omega)
    have d2 : ∀ a b : Shape, decStage (truncModel m) 2 a b = decStage m 2 a b :=
      decStage_trunc m 2 (by omega)
    have d1 : ∀ a b : Shape, decStage (truncModel m) 1 a b = decStage m 1 a b :=
      decStage_trunc m 1 (by omega)
    have d0 : ∀ a b : Shape, decStage (truncModel m) 0 a b = decStage m 0 a b :=
      decStage_trunc m 0 (by omega)
    unfold forward
    simp only [hck, stage0_trunc, stage1_trunc, stage2_trunc, stage3_trunc, stage4_trunc,
      d3, d2, d1, d0]

/-- Claim C4 witness: the amended theorem applied to the four-stage
configuration and the 4×4 input: the forward call produces no result. -/
theorem c4_witness : isOkE (forward model4 ⟨1, 3, 4, 4⟩) = false :=
  c4_forward_hardcoded_five.1 cfg4 false model4 ⟨1, 3, 4, 4⟩ (by decide) (by rfl)

theorem pool_okF (k B c hgt wdt rh rv : Nat) (hh : 1 ≤ hgt) (hw : 1 ≤ wdt) (hk : 1 ≤ k)
    (hrh : ceilDiv hgt k = rh) (hrv : ceilDiv wdt k = rv) :
    pool k ⟨B, c, hgt, wdt⟩ = .ok ⟨B, c, rh, rv⟩ := by
  subst hrh
  subst hrv
  exact pool_ok k ⟨B, c, hgt, wdt⟩ hh hw hk

theorem upsample_okF (k B c hgt wdt rh rv : Nat) (hh : 1 ≤ hgt) (hw : 1 ≤ wdt)
    (hrh : hgt * k = rh) (hrv : wdt * k = rv) :
    upsample k ⟨B, c, hgt, wdt⟩ = .ok ⟨B, c, rh, rv⟩ := by
  subst hrh
  subst hrv
  exact upsample_ok k ⟨B, c, hgt, wdt⟩ hh hw

theorem cbam_okF (cExp cAct B hgt wdt : Nat) (h : cAct = cExp) :
    cbamApply cExp ⟨B, cAct, hgt, wdt⟩ = .ok ⟨B, cAct, hgt, wdt⟩ :=
  cbam_ok cExp ⟨B, cAct, hgt, wdt⟩ h

theorem conv1s1_okF (i o B c hgt wdt : Nat) (hc : c = i) (hh : 1 ≤ hgt) (hw : 1 ≤ wdt) :
    applyConv ⟨i, o, 1, 1, 1, 0⟩ ⟨B, c, hgt, wdt⟩ = .ok ⟨B, o, hgt, wdt⟩ :=
  conv1s1_ok i o ⟨B, c, hgt, wdt⟩ hc hh hw

theorem block2_okF (i o B c hgt wdt : Nat) (cp : Bool) (hc : c = i)
    (hh : 1 ≤ hgt) (hw : 1 ≤ wdt) :
    BasicConvBlock.apply ⟨cp, basicConvs i o 2 1 1⟩ ⟨B, c, hgt, wdt⟩ = .ok ⟨B, o, hgt, wdt⟩ :=
  block2_ok i o cp ⟨B, c, hgt, wdt⟩ hc hh hw

/-- Claim C1 counterexample: the claim as stated fails at the degenerate
divisible input `H = W = 0` (0 is divisible by 16): the very first
convolution rejects an empty spatial input, so the forward pass errors
instead of returning the 5 feature maps. -/
theorem c1_counterexample :
    mkModel (defaultConfig 3 64) = .ok (false, modelOf (defaultConfig 3 64)) ∧
    forward (modelOf (defaultConfig 3 64)) ⟨2, 3, 0, 0⟩ = .error .shapeErr := ⟨rfl, rfl⟩

/-- Claim C1 (amended): for the default five-stage configuration and every
input `(B, in_channels, H, W)` with `H` and `W` *positive* and divisible by
the cumulative downsample factor 16, the forward pass succeeds and returns
exactly 5 feature maps in coarse-to-fine order — the deepest encoder output
followed by decoder levels 3, 2, 1, 0 — with channel widths
`base_channels·{16, 8, 4, 2, 1}` at spatial sizes `{H/16, H/8, H/4, H/2, H}`. -/
theorem c1_forward_five_outputs (inCh b B H W : Nat) (hH : 16 ∣ H) (hW : 16 ∣ W)
    (h0 : 0 < H) (w0 : 0 < W) :
    mkModel (defaultConfig inCh b) = .ok (false, modelOf (defaultConfig inCh b)) ∧
    forward (modelOf (defaultConfig inCh b)) ⟨B, inCh, H, W⟩ =
      .ok [⟨B, b * 16, H / 16, W / 16⟩, ⟨B, b * 8, H / 8, W / 8⟩,
           ⟨B, b * 4, H / 4, W / 4⟩, ⟨B, b * 2, H / 2, W / 2⟩, ⟨B, b, H, W⟩] := by
  obtain ⟨hq, rfl⟩ := hH
  obtain ⟨wq, rfl⟩ := hW
  have hq1 : 1 ≤ hq := by omega
  have wq1 : 1 ≤ wq := by omega
  refine ⟨rfl, ?_⟩
  set M := modelOf (defaultConfig inCh b) with hM
  have hck : checkInputDivisible M ⟨B, inCh, 16 * hq, 16 * wq⟩ = .ok () := by
    unfold checkInputDivisible
    rw [show wholeDownsampleRate M = 16 from rfl]
    exact if_pos ⟨show (16 * hq) % 16 = 0 by omega, show (16 * wq) % 16 = 0 by omega⟩
  have hs0 : stage0 M ⟨B, inCh, 16 * hq, 16 * wq⟩
      = .ok ⟨B, b * 2 ^ 0, 16 * hq, 16 * wq⟩ := by
    unfold stage0
    simp only [show lookupM M.effu_c2 0 = .ok ⟨false, basicConvs inCh (b * 2 ^ 0) 2 1 1⟩
      from rfl, ok_bind]
    exact block2_okF inCh (b * 2 ^ 0) B inCh (16 * hq) (16 * wq) false rfl
      (by omega) (by omega)
  have hs1 : stage1 M ⟨B, b * 2 ^ 0, 16 * hq, 16 * wq⟩
      = .ok ⟨B, b * 2 ^ 1, 8 * hq, 8 * wq⟩ := by
    unfold stage1
    have hfp : fuseInput1 M ⟨B, b * 2 ^ 0, 16 * hq, 16 * wq⟩
        = .ok ⟨B, b * 2 ^ 0, 8 * hq, 8 * wq⟩ := by
      show pool 2 ⟨B, b * 2 ^ 0, 16 * hq, 16 * wq⟩ = _
      exact pool_okF 2 B (b * 2 ^ 0) (16 * hq) (16 * wq) (8 * hq) (8 * wq)
        (by omega) (by omega) (by omega)
        (by simp only [ceilDiv]; omega) (by simp only [ceilDiv]; omega)
    simp only [show lookupM M.effu_c2 1
        = .ok ⟨false, basicConvs (b * 2 ^ 0) (b * 2 ^ 1) 2 1 1⟩ from rfl,
      show lookupM M.effu_c1 0 = .ok ⟨b * 2 ^ 0, b * 2 ^ 0, 1, 1, 1, 0⟩ from rfl,
      show lookupM M.effu_cbam 0 = .ok (b * 2 ^ 0) from rfl,
      hfp,
      cbam_okF (b * 2 ^ 0) (b * 2 ^ 0) B (8 * hq) (8 * wq) rfl,
      conv1s1_okF (b * 2 ^ 0) (b * 2 ^ 0) B (b * 2 ^ 0) (8 * hq) (8 * wq) rfl
        (by omega) (by omega),
      ok_bind]
    exact block2_okF (b * 2 ^ 0) (b * 2 ^ 1) B (b * 2 ^ 0) (8 * hq) (8 * wq) false rfl
      (by omega) (by omega)
  have hs2 : stage2 M ⟨B, b * 2 ^ 0, 16 * hq, 16 * wq⟩ ⟨B, b * 2 ^ 1, 8 * hq, 8 * wq⟩
      = .ok ⟨B, b * 2 ^ 2, 4 * hq, 4 * wq⟩ := by
    unfold stage2
    have hfp : fuseInput2 M ⟨B, b * 2 ^ 0, 16 * hq, 16 * wq⟩ ⟨B, b * 2 ^ 1, 8 * hq, 8 * wq⟩
        = .ok ⟨B, b * 2 ^ 0 + b * 2 ^ 1, 4 * hq, 4 * wq⟩ := by
      show (do
        let a ← pool 4 ⟨B, b * 2 ^ 0, 16 * hq, 16 * wq⟩
        let c ← pool 2 ⟨B, b * 2 ^ 1, 8 * hq, 8 * wq⟩
        catList [a, c]) = _
      simp only [pool_okF 4 B (b * 2 ^ 0) (16 * hq) (16 * wq) (4 * hq) (4 * wq)
          (by omega) (by omega) (by omega)
          (by simp only [ceilDiv]; omega) (by simp only [ceilDiv]; omega),
        pool_okF 2 B (b * 2 ^ 1) (8 * hq) (8 * wq) (4 * hq) (4 * wq)
          (by omega) (by omega) (by omega)
          (by simp only [ceilDiv]; omega) (by simp only [ceilDiv]; omega),
        ok_bind]
      exact catList2_ok ⟨B, b * 2 ^ 0, 4 * hq, 4 * wq⟩ ⟨B, b * 2 ^ 1, 4 * hq, 4 * wq⟩
        rfl rfl rfl
    simp only [show lookupM M.effu_c2 2
        = .ok ⟨false, basicConvs (b * 2 ^ 1) (b * 2 ^ 2) 2 1 1⟩ from rfl,
      show lookupM M.effu_c1 1
        = .ok ⟨b * 2 ^ 0 + b * 2 ^ 1, b * 2 ^ 1, 1, 1, 1, 0⟩ from rfl,
      show lookupM M.effu_cbam 1 = .ok (b * 2 ^ 0 + b * 2 ^ 1) from rfl,
      hfp,
      cbam_okF (b * 2 ^ 0 + b * 2 ^ 1) (b * 2 ^ 0 + b * 2 ^ 1) B (4 * hq) (4 * wq) rfl,
      conv1s1_okF (b * 2 ^ 0 + b * 2 ^ 1) (b * 2 ^ 1) B (b * 2 ^ 0 + b * 2 ^ 1)
        (4 * hq) (4 * wq) rfl (by omega) (by omega),
      ok_bind]
    exact block2_okF (b * 2 ^ 1) (b * 2 ^ 2) B (b * 2 ^ 1) (4 * hq) (4 * wq) false rfl
      (by omega) (by omega)
  have hs3 : stage3 M ⟨B, b * 2 ^ 0, 16 * hq, 16 * wq⟩ ⟨B, b * 2 ^ 1, 8 * hq, 8 * wq⟩
      ⟨B, b * 2 ^ 2, 4 * hq, 4 * wq⟩ = .ok ⟨B, b * 2 ^ 3, 2 * hq, 2 * wq⟩ := by
    unfold stage3
    have hfp : fuseInput3 M ⟨B, b * 2 ^ 0, 16 * hq, 16 * wq⟩ ⟨B, b * 2 ^ 1, 8 * hq, 8 * wq⟩
        ⟨B, b * 2 ^ 2, 4 * hq, 4 * wq⟩
        = .ok ⟨B, b * 2 ^ 0 + b * 2 ^ 1 + b * 2 ^ 2, 2 * hq, 2 * wq⟩ := by
      show (do
        let a ← pool 8 ⟨B, b * 2 ^ 0, 16 * hq, 16 * wq⟩
        let c ← pool 4 ⟨B, b * 2 ^ 1, 8 * hq, 8 * wq⟩
        let d ← pool 2 ⟨B, b * 2 ^ 2, 4 * hq, 4 * wq⟩
        catList [a, c, d]) = _
      simp only [pool_okF 8 B (b * 2 ^ 0) (16 * hq) (16 * wq) (2 * hq) (2 * wq)
          (by omega) (by omega) (by omega)
          (by simp only [ceilDiv]; omega) (by simp only [ceilDiv]; omega),
        pool_okF 4 B (b * 2 ^ 1) (8 * hq) (8 * wq) (2 * hq) (2 * wq)
          (by omega) (by omega) (by omega)
          (by simp only [ceilDiv]; omega) (by simp only [ceilDiv]; omega),
        pool_okF 2 B (b * 2 ^ 2) (4 * hq) (4 * wq) (2 * hq) (2 * wq)
          (by omega) (by omega) (by omega)
          (by simp only [ceilDiv]; omega) (by simp only [ceilDiv]; omega),
        ok_bind]
      exact catList3_ok ⟨B, b * 2 ^ 0, 2 * hq, 2 * wq⟩ ⟨B, b * 2 ^ 1, 2 * hq, 2 * wq⟩
        ⟨B, b * 2 ^ 2, 2 * hq, 2 * wq⟩ rfl rfl rfl rfl rfl rfl
    simp only [show lookupM M.effu_c2 3
        = .ok ⟨false, basicConvs (b * 2 ^ 2) (b * 2 ^ 3) 2 1 1⟩ from rfl,
      show lookupM M.effu_c1 2
        = .ok ⟨b * 2 ^ 0 + (b * 2 ^ 1 + b * 2 ^ 2), b * 2 ^ 2, 1, 1, 1, 0⟩ from rfl,
      show lookupM M.effu_cbam 2 = .ok (b * 2 ^ 0 + (b * 2 ^ 1 + b * 2 ^ 2)) from rfl,
      hfp,
      cbam_okF (b * 2 ^ 0 + (b * 2 ^ 1 + b * 2 ^ 2)) (b * 2 ^ 0 + b * 2 ^ 1 + b * 2 ^ 2)
        B (2 * hq) (2 * wq) (by ring),
      conv1s1_okF (b * 2 ^ 0 + (b * 2 ^ 1 + b * 2 ^ 2)) (b * 2 ^ 2)
        B (b * 2 ^ 0 + b * 2 ^ 1 + b * 2 ^ 2) (2 * hq) (2 * wq) (by ring)
        (by omega) (by omega),
      ok_bind]
    exact block2_okF (b * 2 ^ 2) (b * 2 ^ 3) B (b * 2 ^ 2) (2 * hq) (2 * wq) false rfl
      (by omega) (by omega)
  have hs4 : stage4 M ⟨B, b * 2 ^ 0, 16 * hq, 16 * wq⟩ ⟨B, b * 2 ^ 1, 8 * hq, 8 * wq⟩
      ⟨B, b * 2 ^ 2, 4 * hq, 4 * wq⟩ ⟨B, b * 2 ^ 3, 2 * hq, 2 * wq⟩
      = .ok ⟨B, b * 2 ^ 4, hq, wq⟩ := by
    unfold stage4
    have hfp : fuseInput4 M ⟨B, b * 2 ^ 0, 16 * hq, 16 * wq⟩ ⟨B, b * 2 ^ 1, 8 * hq, 8 * wq⟩
        ⟨B, b * 2 ^ 2, 4 * hq, 4 * wq⟩ ⟨B, b * 2 ^ 3, 2 * hq, 2 * wq⟩
        = .ok ⟨B, b * 2 ^ 0 + b * 2 ^ 1 + b * 2 ^ 2 + b * 2 ^ 3, hq, wq⟩ := by
      show (do
        let a ← pool 16 ⟨B, b * 2 ^ 0, 16 * hq, 16 * wq⟩
        let c ← pool 8 ⟨B, b * 2 ^ 1, 8 * hq, 8 * wq⟩
        let d ← pool 4 ⟨B, b * 2 ^ 2, 4 * hq, 4 * wq⟩
        let e ← pool 2 ⟨B, b * 2 ^ 3, 2 * hq, 2 * wq⟩
        catList [a, c, d, e]) = _
      simp only [pool_okF 16 B (b * 2 ^ 0) (16 * hq) (16 * wq) hq wq
          (by omega) (by omega) (by omega)
          (by simp only [ceilDiv]; omega) (by simp only [ceilDiv]; omega),
        pool_okF 8 B (b * 2 ^ 1) (8 * hq) (8 * wq) hq wq
          (by omega) (by omega) (by omega)
          (by simp only [ceilDiv]; omega) (by simp only [ceilDiv]; omega),
        pool_okF 4 B (b * 2 ^ 2) (4 * hq) (4 * wq) hq wq
          (by omega) (by omega) (by omega)
          (by simp only [ceilDiv]; omega) (by simp only [ceilDiv]; omega),
        pool_okF 2 B (b * 2 ^ 3) (2 * hq) (2 * wq) hq wq
          (by omega) (by omega) (by omega)
          (by simp only [ceilDiv]; omega) (by simp only [ceilDiv]; omega),
        ok_bind]
      exact catList4_ok ⟨B, b * 2 ^ 0, hq, wq⟩ ⟨B, b * 2 ^ 1, hq, wq⟩
        ⟨B, b * 2 ^ 2, hq, wq⟩ ⟨B, b * 2 ^ 3, hq, wq⟩ rfl rfl rfl rfl rfl rfl rfl rfl rfl
    simp only [show lookupM M.effu_c2 4
        = .ok ⟨false, basicConvs (b * 2 ^ 3) (b * 2 ^ 4) 2 1 1⟩ from rfl,
      show lookupM M.effu_c1 3
        = .ok ⟨b * 2 ^ 0 + (b * 2 ^ 1 + (b * 2 ^ 2 + b * 2 ^ 3)), b * 2 ^ 3, 1, 1, 1, 0⟩
        from rfl,
      show lookupM M.effu_cbam 3
        = .ok (b * 2 ^ 0 + (b * 2 ^ 1 + (b * 2 ^ 2 + b * 2 ^ 3))) from rfl,
      hfp,
      cbam_okF (b * 2 ^ 0 + (b * 2 ^ 1 + (b * 2 ^ 2 + b * 2 ^ 3)))
        (b * 2 ^ 0 + b * 2 ^ 1 + b * 2 ^ 2 + b * 2 ^ 3) B hq wq (by ring),
      conv1s1_okF (b * 2 ^ 0 + (b * 2 ^ 1 + (b * 2 ^ 2 + b * 2 ^ 3))) (b * 2 ^ 3)
        B (b * 2 ^ 0 + b * 2 ^ 1 + b * 2 ^ 2 + b * 2 ^ 3) hq wq (by ring)
        (by omega) (by omega),
      ok_bind]
    exact block2_okF (b * 2 ^ 3) (b * 2 ^ 4) B (b * 2 ^ 3) hq wq false rfl
      (by omega) (by omega)
  have hd3 : decStage M 3 ⟨B, b * 2 ^ 3, 2 * hq, 2 * wq⟩ ⟨B, b * 2 ^ 4, hq, wq⟩
      = .ok ⟨B, b * 2 ^ 3, 2 * hq, 2 * wq⟩ := by
    unfold decStage
    simp only [show lookupM M.decoder 3
        = .ok ⟨false, basicConvs (b * 2 ^ 3 + b * 2 ^ 4) (b * 2 ^ 3) 2 1 1⟩ from rfl,
      show M.up2 = 2 from rfl,
      upsample_okF 2 B (b * 2 ^ 4) hq wq (2 * hq) (2 * wq)
        (by omega) (by omega) (by omega) (by omega),
      catList2_ok ⟨B, b * 2 ^ 3, 2 * hq, 2 * wq⟩ ⟨B, b * 2 ^ 4, 2 * hq, 2 * wq⟩ rfl rfl rfl,
      ok_bind]
    exact block2_okF (b * 2 ^ 3 + b * 2 ^ 4) (b * 2 ^ 3) B (b * 2 ^ 3 + b * 2 ^ 4)
      (2 * hq) (2 * wq) false rfl (by omega) (by omega)
  have hd2 : decStage M 2 ⟨B, b * 2 ^ 2, 4 * hq, 4 * wq⟩ ⟨B, b * 2 ^ 3, 2 * hq, 2 * wq⟩
      = .ok ⟨B, b * 2 ^ 2, 4 * hq, 4 * wq⟩ := by
    unfold decStage
    simp only [show lookupM M.decoder 2
        = .ok ⟨false, basicConvs (b * 2 ^ 2 + b * 2 ^ 3) (b * 2 ^ 2) 2 1 1⟩ from rfl,
      show M.up2 = 2 from rfl,
      upsample_okF 2 B (b * 2 ^ 3) (2 * hq) (2 * wq) (4 * hq) (4 * wq)
        (by omega) (by omega) (by omega) (by omega),
      catList2_ok ⟨B, b * 2 ^ 2, 4 * hq, 4 * wq⟩ ⟨B, b * 2 ^ 3, 4 * hq, 4 * wq⟩ rfl rfl rfl,
      ok_bind]
    exact block2_okF (b * 2 ^ 2 + b * 2 ^ 3) (b * 2 ^ 2) B (b * 2 ^ 2 + b * 2 ^ 3)
      (4 * hq) (4 * wq) false rfl (by omega) (by omega)
  have hd1 : decStage M 1 ⟨B, b * 2 ^ 1, 8 * hq, 8 * wq⟩ ⟨B, b * 2 ^ 2, 4 * hq, 4 * wq⟩
      = .ok ⟨B, b * 2 ^ 1, 8 * hq, 8 * wq⟩ := by
    unfold decStage
    simp only [show lookupM M.decoder 1
        = .ok ⟨false, basicConvs (b * 2 ^ 1 + b * 2 ^ 2) (b * 2 ^ 1) 2 1 1⟩ from rfl,
      show M.up2 = 2 from rfl,
      upsample_okF 2 B (b * 2 ^ 2) (4 * hq) (4 * wq) (8 * hq) (8 * wq)
        (by omega) (by omega) (by omega) (by omega),
      catList2_ok ⟨B, b * 2 ^ 1, 8 * hq, 8 * wq⟩ ⟨B, b * 2 ^ 2, 8 * hq, 8 * wq⟩ rfl rfl rfl,
      ok_bind]
    exact block2_okF (b * 2 ^ 1 + b * 2 ^ 2) (b * 2 ^ 1) B (b * 2 ^ 1 + b * 2 ^ 2)
      (8 * hq) (8 * wq) false rfl (by omega) (by omega)
  have hd0 : decStage M 0 ⟨B, b * 2 ^ 0, 16 * hq, 16 * wq⟩ ⟨B, b * 2 ^ 1, 8 * hq, 8 * wq⟩
      = .ok ⟨B, b * 2 ^ 0, 16 * hq, 16 * wq⟩ := by
    unfold decStage
    simp only [show lookupM M.decoder 0
        = .ok ⟨false, basicConvs (b * 2 ^ 0 + b * 2 ^ 1) (b * 2 ^ 0) 2 1 1⟩ from rfl,
      show M.up2 = 2 from rfl,
      upsample_okF 2 B (b * 2 ^ 1) (8 * hq) (8 * wq) (16 * hq) (16 * wq)
        (by omega) (by omega) (by omega) (by omega),
      catList2_ok ⟨B, b * 2 ^ 0, 16 * hq, 16 * wq⟩ ⟨B, b * 2 ^ 1, 16 * hq, 16 * wq⟩
        rfl rfl rfl,
      ok_bind]
    exact block2_okF (b * 2 ^ 0 + b * 2 ^ 1) (b * 2 ^ 0) B (b * 2 ^ 0 + b * 2 ^ 1)
      (16 * hq) (16 * wq) false rfl (by omega) (by omega)
  unfold forward
  simp only [hck, hs0, hs1, hs2, hs3, hs4, hd3, hd2, hd1, hd0, ok_bind, pure_eq_ok]
  simp only [Except.ok.injEq, List.cons.injEq, Shape.mk.injEq, and_true]
  norm_num
  omega

/-- Claim C1 witness: the amended theorem applied to a concrete
`(2, 3, 16, 16)` input of the default configuration. -/
theorem c1_witness :
    mkModel (defaultConfig 3 64) = .ok (false, modelOf (defaultConfig 3 64)) ∧
    forward (modelOf (defaultConfig 3 64)) ⟨2, 3, 16, 16⟩ =
      .ok [⟨2, 64 * 16, 16 / 16, 16 / 16⟩, ⟨2, 64 * 8, 16 / 8, 16 / 8⟩,
           ⟨2, 64 * 4, 16 / 4, 16 / 4⟩, ⟨2, 64 * 2, 16 / 2, 16 / 2⟩, ⟨2, 64, 16, 16⟩] :=
  c1_forward_five_outputs 3 64 2 16 16 (by decide) (by decide) (by decide) (by decide)
